import Mathlib

/-!
Verification of the session authorization and policy-enforcement engine of the
`controller-cli` repository, as a shallow embedding in Lean.

The embedding translates, from the Rust source:
  * the policy data model (`src/commands/session/authorize.rs`: `PolicyFile`,
    `PolicyStorage`, `ContractPolicy`, `MethodPolicy`),
  * the error type (`src/error.rs`: `CliError` and `error_code`),
  * the pre-execution policy enforcer
    (`src/commands/execute.rs`: `validate_calls_against_policies`),
  * the canonical policy ordering and the construction of the stored policy
    vector and the authorization-URL policy JSON
    (`src/commands/session/authorize.rs`, `execute`, lines 263-331),
  * the long-poll authorization loop and session persistence
    (`src/commands/session/authorize.rs`, `execute` lines 414-495 and
    `store_session_from_api`; `src/api.rs`, `query_session_info`).

Machine integers are modelled as `Nat`; Starknet field elements as `Nat`
values reduced modulo the Stark prime.  `HashMap`s are modelled as
association lists (their iteration order is unspecified in Rust; theorems
below do not depend on a particular order beyond what the code itself fixes
by sorting).  External crate calls (`Session::new`, `get_selector_from_name`,
`poseidon_hash`, network I/O) are modelled as constructors recording their
inputs, or taken as parameters, as noted at each definition.
-/

/-! ## Field elements and hex parsing

`starknet::core::types::Felt::from_hex` (starknet-types-core / lambdaworks):
an optional `0x` prefix is stripped; an empty digit string, a non-hex
character, or more than 64 hex digits is an error; otherwise the value is
reduced modulo the Stark prime `2^251 + 17*2^192 + 1`.
-/

/-- The Stark prime `2^251 + 17 * 2^192 + 1`. -/
def starkPrime : Nat := 2 ^ 251 + 17 * 2 ^ 192 + 1

/-- Is `c` an ASCII hex digit (`0-9`, `a-f`, `A-F`)? -/
def isHexDigitChar (c : Char) : Bool :=
  (48 ≤ c.toNat && c.toNat ≤ 57) ||
  (97 ≤ c.toNat && c.toNat ≤ 102) ||
  (65 ≤ c.toNat && c.toNat ≤ 70)

/-- Numeric value of an ASCII hex digit. -/
def hexDigitVal (c : Char) : Nat :=
  if 48 ≤ c.toNat && c.toNat ≤ 57 then c.toNat - 48
  else if 97 ≤ c.toNat && c.toNat ≤ 102 then c.toNat - 87
  else c.toNat - 55

/-- Value of a big-endian hex digit string. -/
def hexVal (cs : List Char) : Nat :=
  cs.foldl (fun acc c => acc * 16 + hexDigitVal c) 0

/-- Model of `Felt::from_hex`: strip an optional `0x` prefix, reject an empty
digit string, a non-hex character, or more than 64 digits, and reduce the
value modulo the Stark prime. -/
def feltFromHex (s : String) : Option Nat :=
  let cs :=
    match s.data with
    | '0' :: 'x' :: rest => rest
    | l => l
  if cs.isEmpty then none
  else if !cs.all isHexDigitChar then none
  else if 64 < cs.length then none
  else some (hexVal cs % starkPrime)

/-- Model of `starknet::core::utils::cairo_short_string_to_felt`: an ASCII
string of at most 31 characters is packed big-endian into a field element;
anything else is an error. -/
def shortStringToFelt (s : String) : Option Nat :=
  if s.data.all (fun c => c.toNat < 128) && s.data.length ≤ 31 then
    some (s.data.foldl (fun acc c => acc * 256 + c.toNat) 0)
  else none

/-- Lowercase hex rendering of a `Nat` (no `0x` prefix), as produced by Rust
`format!("{:x}", n)`. -/
def natToHex (n : Nat) : String := String.mk (Nat.toDigits 16 n)

/-! ## Policy data model (`src/commands/session/authorize.rs`) -/

/-- `MethodPolicy` from `src/commands/session/authorize.rs`. -/
structure MethodPolicy where
  name : String
  entrypoint : String
  description : Option String
  amount : Option String
  authorized : Bool
deriving DecidableEq

/-- `ContractPolicy` from `src/commands/session/authorize.rs`. -/
structure ContractPolicy where
  name : Option String
  methods : List MethodPolicy
deriving DecidableEq

/-- `PolicyStorage` from `src/commands/session/authorize.rs`; the
`HashMap<String, ContractPolicy>` is modelled as an association list (Rust's
`HashMap` iteration order is unspecified). -/
structure PolicyStorage where
  contracts : List (String × ContractPolicy)
deriving DecidableEq

/-- `PolicyFile` from `src/commands/session/authorize.rs`; the `messages`
pass-through list of opaque `serde_json::Value`s is modelled as opaque
strings. -/
structure PolicyFileM where
  contracts : List (String × ContractPolicy)
  messages : Option (List String)
deriving DecidableEq

/-- `CallSpec` from `src/commands/execute.rs`. -/
structure CallSpec where
  contract_address : String
  entrypoint : String
  calldata : List String
deriving DecidableEq

/-! ## Error type (`src/error.rs`) -/

/-- `CliError` from `src/error.rs`.  `Other(anyhow::Error)` carries an opaque
message. -/
inductive CliErrorM where
  | noSession
  | sessionExpired (at_ : String)
  | policyViolation (message details : String)
  | invalidSessionData (msg : String)
  | storage (msg : String)
  | network (msg : String)
  | transactionFailed (msg : String)
  | invalidInput (msg : String)
  | callbackTimeout (secs : Nat)
  | serverError (msg : String)
  | apiError (msg : String)
  | timeoutError (msg : String)
  | notFoundError (msg : String)
  | fileError (path message : String)
  | other (msg : String)
deriving DecidableEq

/-- `CliError::error_code` from `src/error.rs`. -/
def CliErrorM.errorCode : CliErrorM → String
  | .noSession => "NoSession"
  | .sessionExpired _ => "SessionExpired"
  | .policyViolation _ _ => "PolicyViolation"
  | .invalidSessionData _ => "InvalidSessionData"
  | .storage _ => "StorageError"
  | .network _ => "NetworkError"
  | .transactionFailed _ => "TransactionFailed"
  | .invalidInput _ => "InvalidInput"
  | .callbackTimeout _ => "CallbackTimeout"
  | .serverError _ => "ServerError"
  | .apiError _ => "ApiError"
  | .timeoutError _ => "TimeoutError"
  | .notFoundError _ => "NotFoundError"
  | .fileError _ _ => "FileError"
  | .other _ => "UnknownError"

/-! ## Policy enforcer (`src/commands/execute.rs`, `validate_calls_against_policies`) -/

/-- Rust `str::to_lowercase`, restricted to its ASCII action (the strings it
is applied to in the enforcer and the canonical sort are hex address
strings): each character is lowered individually. -/
def lowerStr (s : String) : String := String.mk (s.data.map Char.toLower)

/-- Rust `[&str]::join(sep)`. -/
def joinSep (sep : String) : List String → String
  | [] => ""
  | [x] => x
  | x :: y :: rest => x ++ sep ++ joinSep sep (y :: rest)

/-- A single-quote character, for building the enforcer's error message. -/
def quoteChar : String := String.singleton (Char.ofNat 39)

/-- The message of the empty-batch rejection in
`validate_calls_against_policies`. -/
def noCallsMsg : String := "No calls provided to execute."

/-- The message of the unknown-contract rejection in
`validate_calls_against_policies` (Rust's backslash-newline in the format
string elides the newline and the following indentation). -/
def noContractMsg (addr : String) : String :=
  "Contract " ++ addr ++
    " is not authorized by the current session policies. Register a new session with policies that include this contract."

/-- The message of the disallowed-entrypoint rejection in
`validate_calls_against_policies`. -/
def entrypointMsg (entry addr : String) (allowed : List String) : String :=
  "Entrypoint " ++ quoteChar ++ entry ++ quoteChar ++ " on contract " ++ addr ++
    " is not authorized by the current session. Allowed entrypoints: [" ++
    joinSep ", " allowed ++ "]"

/-- The contract-matching predicate of `validate_calls_against_policies`:
the call address and the policy key are compared as parsed field elements
when both parse, and case-insensitively as strings otherwise. -/
def addrMatches (callAddr policyKey : String) : Bool :=
  match feltFromHex callAddr, feltFromHex policyKey with
  | some a, some b => a == b
  | _, _ => lowerStr policyKey == lowerStr callAddr

/-- `policies.contracts.iter().find(...)` from
`validate_calls_against_policies`, over the association-list model. -/
def findMatchingContract (ps : PolicyStorage) (call : CallSpec) :
    Option (String × ContractPolicy) :=
  ps.contracts.find? (fun p => addrMatches call.contract_address p.1)

/-- The per-call body of the `for call in calls` loop of
`validate_calls_against_policies`. -/
def checkCall (ps : PolicyStorage) (call : CallSpec) : Except CliErrorM Unit :=
  match findMatchingContract ps call with
  | none => .error (.invalidInput (noContractMsg call.contract_address))
  | some (_, cp) =>
    if cp.methods.any (fun m => m.entrypoint == call.entrypoint) then .ok ()
    else
      .error (.invalidInput (entrypointMsg call.entrypoint call.contract_address
        (cp.methods.map (fun m => m.entrypoint))))

/-- The `for` loop of `validate_calls_against_policies`: the first failing
call aborts. -/
def validateLoop (ps : PolicyStorage) : List CallSpec → Except CliErrorM Unit
  | [] => .ok ()
  | c :: rest =>
    match checkCall ps c with
    | .error e => .error e
    | .ok _ => validateLoop ps rest

/-- `validate_calls_against_policies` from `src/commands/execute.rs`. -/
def validateCallsAgainstPolicies (calls : List CallSpec) (ps : PolicyStorage) :
    Except CliErrorM Unit :=
  if calls.isEmpty then .error (.invalidInput noCallsMsg)
  else validateLoop ps calls

/-! ## The validation gate of `execute` (`src/commands/execute.rs`)

`execute` loads `session_policies` from storage (line 143-151: a missing
key, a non-string value, or an unparsable JSON string all yield `None`) and
runs `validate_calls_against_policies` only when a snapshot was decoded
(line 237-240); an error aborts before any signing or submission.  The
value an `.ok` result carries is the batch that proceeds to signing and
submission.
-/

/-- `account_sdk::storage::StorageValue` as seen by `execute`: a string
payload or any other variant. -/
inductive StorageValueM where
  | strVal (s : String)
  | otherVal
deriving DecidableEq

/-- The `session_policies` load of `execute` (lines 143-151), parameterized
by the JSON decoder `serde_json::from_str` (an external library): a missing
value, a non-string value, or a string the decoder rejects all yield
`none`. -/
def loadStoredPolicies (parse : String → Option PolicyStorage)
    (v : Option StorageValueM) : Option PolicyStorage :=
  match v with
  | some (.strVal s) => parse s
  | _ => none

/-- The policy-validation gate of `execute` (lines 237-240): with a decoded
snapshot the batch must pass `validate_calls_against_policies` before it is
signed and submitted; with no snapshot the batch proceeds unchecked.  The
`.ok` payload is the batch handed on to signing/submission; an `.error`
submits nothing. -/
def executeGate (calls : List CallSpec) (stored : Option PolicyStorage) :
    Except CliErrorM (List CallSpec) :=
  match stored with
  | some ps =>
    match validateCallsAgainstPolicies calls ps with
    | .error e => .error e
    | .ok _ => .ok calls
  | none => .ok calls

/-! ## Canonical policy ordering (`src/commands/session/authorize.rs`, lines 263-331)

`execute` sorts the contract entries by the case-insensitive (lowercased)
address string (`sort_by(|(a,_),(b,_)| a.to_lowercase().cmp(&b.to_lowercase()))`,
line 279) and, for the stored policy vector only, sorts each contract's
methods by entrypoint (`sort_by(|a,b| a.entrypoint.cmp(&b.entrypoint))`,
line 299).  Rust's `str::cmp` is byte-wise over UTF-8, which coincides with
the code-point lexicographic order used here; Rust's `to_lowercase` agrees
with Lean's `String.toLower` on the ASCII hex address strings this order is
applied to.  Both sorts (Rust `sort_by` and Lean `mergeSort`) are stable.
-/

/-- The contract comparison of line 279, as a boolean total preorder. -/
def contractLe (a b : String × ContractPolicy) : Bool :=
  lowerStr a.1 ≤ lowerStr b.1

/-- The method comparison of line 299, as a boolean total preorder. -/
def methodLe (a b : MethodPolicy) : Bool :=
  a.entrypoint ≤ b.entrypoint

/-- The `sorted_contracts` sort of line 278-279. -/
def sortContracts (cs : List (String × ContractPolicy)) :
    List (String × ContractPolicy) :=
  cs.mergeSort contractLe

/-- The `sorted_methods` sort of line 298-299. -/
def sortMethods (ms : List MethodPolicy) : List MethodPolicy :=
  ms.mergeSort methodLe

/-- The canonical sort of the spec's `normalize`: contracts sorted by
case-insensitive address, and each contract's grant list sorted by
entrypoint (the two sorts the code performs at lines 279 and 299). -/
def normalizeContracts (cs : List (String × ContractPolicy)) :
    List (String × ContractPolicy) :=
  (sortContracts cs).map (fun p => (p.1, ContractPolicy.mk p.2.name (sortMethods p.2.methods)))

/-- One stored `Policy::Call` entry (`account_sdk` `CallPolicy`), as pushed
at lines 312-318.  The selector is `get_selector_from_name(entrypoint)`
(`sn_keccak`, an external crate function); it is modelled by the entrypoint
name it is applied to, recorded in `selectorName`. -/
structure CallPolicyM where
  contract_address : Nat
  selectorName : String
  authorized : Bool
deriving DecidableEq

/-- The per-method body of the inner loop at lines 301-319:
`get_selector_from_name` fails on a non-ASCII entrypoint name
(`NonAsciiNameError`), turned into `InvalidInput`; the exact Rust message
also interpolates the source error, elided here. -/
def methodEntryPolicies (f : Nat) : List MethodPolicy → Except CliErrorM (List CallPolicyM)
  | [] => .ok []
  | m :: ms =>
    if m.entrypoint.data.all (fun c => c.toNat < 128) then
      match methodEntryPolicies f ms with
      | .error e => .error e
      | .ok l => .ok (CallPolicyM.mk f m.entrypoint m.authorized :: l)
    else .error (.invalidInput ("Invalid entrypoint name " ++ m.entrypoint))

/-- The per-contract body of the loop at lines 281-320 restricted to the
policy-vector construction: parse the address (lines 290-295) and emit one
`CallPolicyM` per method, in `sorted_methods` order (lines 297-319). -/
def contractEntryPolicies (p : String × ContractPolicy) :
    Except CliErrorM (List CallPolicyM) :=
  match feltFromHex p.1 with
  | none => .error (.invalidInput ("Invalid contract address " ++ p.1))
  | some f => methodEntryPolicies f (sortMethods p.2.methods)

/-- The loop over `sorted_contracts` building `policy_vec`. -/
def buildPolicyVecLoop : List (String × ContractPolicy) → Except CliErrorM (List CallPolicyM)
  | [] => .ok []
  | p :: rest =>
    match contractEntryPolicies p with
    | .error e => .error e
    | .ok l =>
      match buildPolicyVecLoop rest with
      | .error e => .error e
      | .ok ls => .ok (l ++ ls)

/-- `policy_vec` as built by `execute` (lines 272-331): contracts in
`sorted_contracts` order, methods in `sorted_methods` order. -/
def buildPolicyVec (pf : PolicyFileM) : Except CliErrorM (List CallPolicyM) :=
  buildPolicyVecLoop (sortContracts pf.contracts)

/-- The insertion sequence of `(address, methods)` entries into the
`"contracts"` object of the authorization-URL policies JSON (line 281-287):
contracts in `sorted_contracts` order, each carrying its methods in the
policy file's original order (`&contract.methods`, not `sorted_methods`). -/
def urlContractsEntries (pf : PolicyFileM) : List (String × List MethodPolicy) :=
  (sortContracts pf.contracts).map (fun p => (p.1, p.2.methods))

/-- The sequence of `(address, entrypoint)` grant pairs in the order they
appear in the authorization-URL policies JSON. -/
def urlPolicyOrder (pf : PolicyFileM) : List (String × String) :=
  (sortContracts pf.contracts).flatMap
    (fun p => p.2.methods.map (fun m => (p.1, m.entrypoint)))

/-! ## Authorization flow (`src/commands/session/authorize.rs`, lines 156-495)

After validating its inputs, `execute` generates a fresh keypair and
immediately persists it under the `session_signer` key (lines 156-180);
it then loads and canonicalizes the policies, builds the authorization URL,
and long-polls `query_session_info` with a fixed `session_key_guid` up to
`max_attempts = 3` times (lines 414-495).  On an approval it writes, via
`store_session_from_api`, the `SessionMetadata` record and the
`ControllerMetadata` record, followed by the `session_chain_id`,
`session_rpc_url`, `session_policies` and `session_key_guid` scalar keys;
on three empty poll results it fails with
`CliError::CallbackTimeout(max_attempts * 120)`.

Storage is modelled as the trace of write operations issued to the
`FileSystemBackend` (whose writes are assumed to succeed; its I/O errors
are outside the model).  JSON round-trips through `serde_json` of values
the flow itself wrote are modelled structurally.
-/

/-- `api::SessionInfo` (with its nested `ControllerInfo`) from
`src/api.rs`. -/
structure SessionInfoM where
  authorization : List String
  address : String
  accountId : String
  chainId : String
  expiresAt : Nat
deriving DecidableEq

/-- `account_sdk::account::session::hash::Session` as produced by
`Session::new(policies, expires_at, &session_signer, Felt::ZERO)` — an
external crate constructor, modelled as a record of its inputs. -/
structure SessionM where
  policies : List CallPolicyM
  expiresAt : Nat
  signerPubkey : Nat
  guardianKeyGuid : Nat
deriving DecidableEq

/-- `account_sdk::storage::SessionMetadata` as assembled by
`store_session_from_api` (credentials hold the locally stored private key
and the authorization proof from the API). -/
structure SessionMetadataM where
  credPrivateKey : Nat
  credAuthorization : List Nat
  session : SessionM
  maxFee : Option Nat
  isRegistered : Bool
deriving DecidableEq

/-- `account_sdk::storage::ControllerMetadata` as assembled by
`store_session_from_api` (placeholder fields zero/empty). -/
structure ControllerMetadataM where
  address : Nat
  chainId : Nat
  classHash : Nat
  rpcUrl : String
  salt : Nat
  ownerAccount : Nat
  username : String
deriving DecidableEq

/-- A scalar value in the key-value store.  `credsV` models the
JSON-serialized `Credentials` written under `session_signer`; `policiesV`
models the JSON-serialized `PolicyStorage` snapshot; plain strings stay
strings. -/
inductive StoredVal where
  | credsV (privateKey : Nat) (authorization : List Nat)
  | strV (s : String)
  | policiesV (contracts : List (String × ContractPolicy))
deriving DecidableEq

/-- One write issued to the storage backend. -/
inductive StoreOp where
  | setScalar (key : String) (v : StoredVal)
  | setSession (key : String) (m : SessionMetadataM)
  | setController (chainId : Nat) (address : Nat) (m : ControllerMetadataM)
deriving DecidableEq

/-- Read-back of a scalar key from the trace of writes (last write wins),
modelling `backend.get`. -/
def scalarGet (trace : List StoreOp) (key : String) : Option StoredVal :=
  (trace.reverse.findSome? fun op =>
    match op with
    | .setScalar k v => if k == key then some v else none
    | _ => none)

/-- `SessionInfo::authorization_as_felts` from `src/api.rs`. -/
def feltListFromHex : List String → Except CliErrorM (List Nat)
  | [] => .ok []
  | s :: rest =>
    match feltFromHex s with
    | none => .error (.invalidSessionData ("Invalid authorization hex: " ++ s))
    | some f =>
      match feltListFromHex rest with
      | .error e => .error e
      | .ok l => .ok (f :: l)

/-- `SessionInfo::chain_id_as_felt` from `src/api.rs`: hex first, then
Cairo short string, else `InvalidSessionData`. -/
def chainIdAsFelt (s : String) : Except CliErrorM Nat :=
  match feltFromHex s with
  | some f => .ok f
  | none =>
    match shortStringToFelt s with
    | some f => .ok f
    | none => .error (.invalidSessionData ("Invalid chain_id format: " ++ s))

/-- `store_session_from_api` from `src/commands/session/authorize.rs`
(lines 499-587): read the private key back from `session_signer`, parse the
approval data, assemble `SessionMetadata` and `ControllerMetadata`, and
write both (`set_session` then `set_controller`).  Returns the writes it
issues. -/
def storeSessionFromApi (trace : List StoreOp) (si : SessionInfoM)
    (publicKey : String) (policies : List CallPolicyM) :
    Except CliErrorM (List StoreOp) :=
  match scalarGet trace "session_signer" with
  | some (.credsV privateKey _) =>
    match feltListFromHex si.authorization with
    | .error e => .error e
    | .ok auth =>
      match feltFromHex si.address with
      | none => .error (.invalidSessionData ("Invalid address hex: " ++ si.address))
      | some address =>
        match chainIdAsFelt si.chainId with
        | .error e => .error e
        | .ok chainId =>
          match feltFromHex publicKey with
          | none => .error (.invalidInput ("Invalid public key: " ++ publicKey))
          | some pubkeyFelt =>
            if pubkeyFelt == 0 then
              .error (.invalidInput "Invalid public key (zero)")
            else
              let session := SessionM.mk policies si.expiresAt pubkeyFelt 0
              let sessionMetadata :=
                SessionMetadataM.mk privateKey auth session none true
              let controllerMetadata :=
                ControllerMetadataM.mk address chainId 0 "" 0 0 si.accountId
              let sessionKey :=
                "@cartridge/session/0x" ++ natToHex address ++ "/0x" ++ natToHex chainId
              .ok [StoreOp.setSession sessionKey sessionMetadata,
                   StoreOp.setController chainId address controllerMetadata]
  | _ => .error .noSession

/-- `max_attempts` from `src/commands/session/authorize.rs` line 429. -/
def maxAttempts : Nat := 3

/-- The long-poll loop of `execute` (lines 432-495).  `rs` gives the
outcome of `api::query_session_info` on each attempt (1-based);
`fuel` is the remaining attempt budget (initially `maxAttempts`).  Returns
the flow's result together with the full write trace. -/
def authorizePoll (trace : List StoreOp) (publicKey guid rpcUrl : String)
    (policyContracts : List (String × ContractPolicy))
    (policies : List CallPolicyM)
    (rs : Nat → Except CliErrorM (Option SessionInfoM)) :
    Nat → Nat → Except CliErrorM Unit × List StoreOp
  | _, 0 => (.error (.callbackTimeout (maxAttempts * 120)), trace)
  | attempt, fuel + 1 =>
    match rs attempt with
    | .error e => (.error e, trace)
    | .ok (some si) =>
      match storeSessionFromApi trace si publicKey policies with
      | .error e => (.error e, trace)
      | .ok ops =>
        (.ok (), trace ++ ops ++
          [StoreOp.setScalar "session_chain_id" (.strV si.chainId),
           StoreOp.setScalar "session_rpc_url" (.strV rpcUrl),
           StoreOp.setScalar "session_policies" (.policiesV policyContracts),
           StoreOp.setScalar "session_key_guid" (.strV guid)])
    | .ok none => authorizePoll trace publicKey guid rpcUrl policyContracts policies rs (attempt + 1) fuel

/-- The sequence of `(session_key_guid, attempt)` requests the poll loop
issues: every iteration calls `api::query_session_info` with the same
`session_key_guid` computed once before the loop (lines 414-425, 435). -/
def pollCalls (guid : String) (rs : Nat → Except CliErrorM (Option SessionInfoM)) :
    Nat → Nat → List (String × Nat)
  | _, 0 => []
  | attempt, fuel + 1 =>
    (guid, attempt) ::
      (match rs attempt with
       | .ok none => pollCalls guid rs (attempt + 1) fuel
       | _ => [])

/-- The storage-effect slice of `session auth`'s `execute` from the keypair
write onward (lines 156-180 and 414-495): the fresh keypair is persisted
under `session_signer` before the URL is shown or any poll is issued, and
the loop then runs with budget `maxAttempts` starting at attempt 1. -/
def authorizeFlow (privateKey : Nat) (publicKey guid rpcUrl : String)
    (policyContracts : List (String × ContractPolicy))
    (policies : List CallPolicyM)
    (rs : Nat → Except CliErrorM (Option SessionInfoM)) :
    Except CliErrorM Unit × List StoreOp :=
  let trace0 := [StoreOp.setScalar "session_signer" (.credsV privateKey [])]
  authorizePoll trace0 publicKey guid rpcUrl policyContracts policies rs 1 maxAttempts

/-! ## Helper lemmas about the enforcer -/

/-- Every error `checkCall` produces is a `CliError::InvalidInput`. -/
theorem checkCall_error_shape {ps : PolicyStorage} {c : CallSpec} {e : CliErrorM}
    (h : checkCall ps c = .error e) : ∃ m, e = .invalidInput m := by
  rcases hf : findMatchingContract ps c with _ | ⟨key, cp⟩
  · simp only [checkCall, hf, Except.error.injEq] at h
    exact ⟨_, h.symm⟩
  · by_cases ha : (cp.methods.any (fun m => m.entrypoint == c.entrypoint)) = true
    · simp [checkCall, hf, ha] at h
    · simp only [checkCall, hf] at h
      rw [if_neg ha] at h
      simp only [Except.error.injEq] at h
      exact ⟨_, h.symm⟩

/-- A prefix of calls that all pass leaves the loop's verdict to the rest. -/
theorem validateLoop_skip {ps : PolicyStorage} :
    ∀ (pre rest : List CallSpec), (∀ c ∈ pre, checkCall ps c = .ok ()) →
      validateLoop ps (pre ++ rest) = validateLoop ps rest := by
  intro pre
  induction pre with
  | nil => intro rest _; rfl
  | cons a t ih =>
    intro rest h
    have ha : checkCall ps a = .ok () := h a (List.mem_cons_self a t)
    have ht : ∀ c ∈ t, checkCall ps c = .ok () :=
      fun c hc => h c (List.mem_cons_of_mem a hc)
    simp only [List.cons_append, validateLoop, ha]
    exact ih rest ht

/-- Every error the loop produces is a `CliError::InvalidInput`. -/
theorem validateLoop_error_shape {ps : PolicyStorage} :
    ∀ {calls : List CallSpec} {e : CliErrorM},
      validateLoop ps calls = .error e → ∃ m, e = .invalidInput m := by
  intro calls
  induction calls with
  | nil => intro e h; simp [validateLoop] at h
  | cons a t ih =>
    intro e h
    unfold validateLoop at h
    rcases hc : checkCall ps a with e' | u
    · rw [hc] at h
      exact (Except.error.injEq _ _).mp h ▸ checkCall_error_shape hc
    · rw [hc] at h
      exact ih h

/-- A disallowed call anywhere in the batch makes the loop fail. -/
theorem validateLoop_error_of_mem {ps : PolicyStorage} :
    ∀ {calls : List CallSpec} {c : CallSpec}, c ∈ calls →
      (checkCall ps c).isOk = false → ∃ e, validateLoop ps calls = .error e := by
  intro calls
  induction calls with
  | nil => intro c h; cases h
  | cons a t ih =>
    intro c hmem hc
    rcases hck : checkCall ps a with e | u
    · exact ⟨e, by simp [validateLoop, hck]⟩
    · rcases List.mem_cons.mp hmem with rfl | htail
      · rw [hck] at hc; simp [Except.isOk, Except.toBool] at hc
      · obtain ⟨e, he⟩ := ih htail hc
        exact ⟨e, by simp [validateLoop, hck, he]⟩

/-- A list with a distinguished middle element is not empty. -/
theorem append_cons_isEmpty (pre post : List CallSpec) (c : CallSpec) :
    (pre ++ c :: post).isEmpty = false := by
  cases pre <;> rfl

/-! ## Concrete fixtures used by witnesses and counterexamples -/

/-- A one-contract policy store (`0xaaa` allowing only `transfer`). -/
def fixturePolicies : PolicyStorage :=
  PolicyStorage.mk
    [("0xaaa", ContractPolicy.mk none [MethodPolicy.mk "transfer" "transfer" none none true])]

/-- A call targeting a contract absent from `fixturePolicies`. -/
def unknownContractCall : CallSpec := CallSpec.mk "0xdeadbeef" "transfer" []

/-- A call on the known contract with a disallowed entrypoint. -/
def badEntrypointCall : CallSpec := CallSpec.mk "0xaaa" "mint" []

/-! ## Claim theorems -/

/-- C4: during policy enforcement a call's `contractAddress` matches a
policy's contract key iff both parse as field elements and the parsed
values are equal, and, when either side fails to parse, iff the two strings
are equal case-insensitively; in particular the two leading-zero variants
of the spec's example address match in both directions. -/
theorem address_match_characterization :
    (∀ callAddr policyKey : String,
      addrMatches callAddr policyKey = true ↔
        ((∃ a, feltFromHex callAddr = some a ∧ feltFromHex policyKey = some a) ∨
         ((feltFromHex callAddr = none ∨ feltFromHex policyKey = none) ∧
           lowerStr policyKey = lowerStr callAddr))) ∧
    addrMatches "0x6f7c4350d6d5ee926b3ac4fa0c9c351055456e75c92227468d84232fc493a9c"
      "0x06f7c4350d6d5ee926b3ac4fa0c9c351055456e75c92227468d84232fc493a9c" = true ∧
    addrMatches "0x06f7c4350d6d5ee926b3ac4fa0c9c351055456e75c92227468d84232fc493a9c"
      "0x6f7c4350d6d5ee926b3ac4fa0c9c351055456e75c92227468d84232fc493a9c" = true := by
  refine ⟨?_, by decide, by decide⟩
  intro ca k
  rcases h1 : feltFromHex ca with _ | a <;> rcases h2 : feltFromHex k with _ | b <;>
    simp [addrMatches, h1, h2]
  exact ⟨fun h => h.symm, fun h => h.symm⟩

/-- C7: an empty call batch is rejected by the pre-execution check for
every stored policy set (the rejection the spec glosses as "nothing to
authorize"; the literal message is "No calls provided to execute."). -/
theorem empty_batch_always_rejected :
    ∀ ps : PolicyStorage,
      validateCallsAgainstPolicies [] ps = .error (.invalidInput noCallsMsg) :=
  fun _ => rfl

/-- C10: when no policy snapshot is decoded from the `session_policies`
key (missing, non-string, or unparsable JSON), `execute` performs no local
policy validation: every batch — the empty batch included — proceeds
directly to signing and submission. -/
theorem missing_snapshot_skips_validation :
    ∀ (parse : String → Option PolicyStorage) (v : Option StorageValueM)
      (calls : List CallSpec),
      (v = none ∨ v = some .otherVal ∨
        (∃ s, v = some (.strVal s) ∧ parse s = none)) →
      loadStoredPolicies parse v = none ∧
      executeGate calls (loadStoredPolicies parse v) = .ok calls := by
  intro parse v calls h
  have hl : loadStoredPolicies parse v = none := by
    rcases h with h | h | ⟨s, hv, hp⟩ <;> simp [loadStoredPolicies, *]
  exact ⟨hl, by rw [hl]; rfl⟩

/-- Witness for C10 at a concrete unparsable snapshot and the empty batch. -/
theorem missing_snapshot_skips_validation_witness :
    loadStoredPolicies (fun _ => none) (some (.strVal "not json")) = none ∧
    executeGate [] (loadStoredPolicies (fun _ => none) (some (.strVal "not json"))) = .ok [] :=
  missing_snapshot_skips_validation (fun _ => none) (some (.strVal "not json")) []
    (Or.inr (Or.inr ⟨"not json", rfl, rfl⟩))

/-- C8 (amended): every rejection the policy enforcer produces is a
`CliError::InvalidInput` (error code "InvalidInput"), not the reserved
`PolicyViolation` variant. -/
theorem enforcer_error_kind :
    ∀ (calls : List CallSpec) (ps : PolicyStorage) (e : CliErrorM),
      validateCallsAgainstPolicies calls ps = .error e →
      (∃ m, e = .invalidInput m) ∧ e.errorCode = "InvalidInput" := by
  intro calls ps e h
  unfold validateCallsAgainstPolicies at h
  by_cases hc : calls.isEmpty = true
  · rw [if_pos hc] at h
    simp only [Except.error.injEq] at h
    subst h
    exact ⟨⟨_, rfl⟩, rfl⟩
  · rw [if_neg hc] at h
    obtain ⟨m, hm⟩ := validateLoop_error_shape h
    subst hm
    exact ⟨⟨m, rfl⟩, rfl⟩

/-- Witness for C8 (amended) at a concrete rejected batch. -/
theorem enforcer_error_kind_witness :
    (∃ m, CliErrorM.invalidInput (noContractMsg "0xdeadbeef") = .invalidInput m) ∧
    (CliErrorM.invalidInput (noContractMsg "0xdeadbeef")).errorCode = "InvalidInput" :=
  enforcer_error_kind [unknownContractCall] fixturePolicies
    (.invalidInput (noContractMsg "0xdeadbeef")) rfl

/-- Counterexample to C8 as stated: a concrete enforcer rejection whose
error is `InvalidInput`, not `PolicyViolation`. -/
theorem enforcer_error_kind_counterexample :
    validateCallsAgainstPolicies [unknownContractCall] fixturePolicies =
      .error (.invalidInput (noContractMsg "0xdeadbeef")) ∧
    (CliErrorM.invalidInput (noContractMsg "0xdeadbeef")).errorCode ≠ "PolicyViolation" :=
  ⟨rfl, by decide⟩

/-- C5: at the failing call, an unknown contract is rejected with a message
carrying the literal offending address, and a known contract with a
disallowed entrypoint is rejected with a message enumerating all allowed
entrypoints of that contract. -/
theorem rejection_message_content :
    ∀ (ps : PolicyStorage) (pre post : List CallSpec) (c : CallSpec),
      (∀ c₀ ∈ pre, checkCall ps c₀ = .ok ()) →
      ((findMatchingContract ps c = none →
         validateCallsAgainstPolicies (pre ++ c :: post) ps =
           .error (.invalidInput (noContractMsg c.contract_address)) ∧
         ∃ s₁ s₂, noContractMsg c.contract_address = s₁ ++ c.contract_address ++ s₂) ∧
       (∀ key cp, findMatchingContract ps c = some (key, cp) →
         (cp.methods.any (fun m => m.entrypoint == c.entrypoint)) = false →
         validateCallsAgainstPolicies (pre ++ c :: post) ps =
           .error (.invalidInput (entrypointMsg c.entrypoint c.contract_address
             (cp.methods.map (fun m => m.entrypoint)))) ∧
         ∃ s₁ s₂,
           entrypointMsg c.entrypoint c.contract_address
               (cp.methods.map (fun m => m.entrypoint)) =
             s₁ ++ joinSep ", " (cp.methods.map (fun m => m.entrypoint)) ++ s₂)) := by
  intro ps pre post c hpre
  have hv : validateCallsAgainstPolicies (pre ++ c :: post) ps = validateLoop ps (c :: post) := by
    unfold validateCallsAgainstPolicies
    rw [if_neg (by simp [append_cons_isEmpty])]
    exact validateLoop_skip pre (c :: post) hpre
  constructor
  · intro hfind
    refine ⟨?_, "Contract ",
      " is not authorized by the current session policies. Register a new session with policies that include this contract.",
      rfl⟩
    rw [hv]
    simp [validateLoop, checkCall, hfind]
  · intro key cp hfind hentry
    constructor
    · rw [hv]
      simp only [validateLoop, checkCall, hfind]
      rw [if_neg (by simp [hentry])]
    · exact ⟨"Entrypoint " ++ quoteChar ++ c.entrypoint ++ quoteChar ++ " on contract " ++
        c.contract_address ++ " is not authorized by the current session. Allowed entrypoints: [",
        "]", rfl⟩

/-- Witness for C5: both rejection branches at concrete inputs. -/
theorem rejection_message_content_witness :
    (validateCallsAgainstPolicies [unknownContractCall] fixturePolicies =
       .error (.invalidInput (noContractMsg "0xdeadbeef")) ∧
     ∃ s₁ s₂, noContractMsg "0xdeadbeef" = s₁ ++ "0xdeadbeef" ++ s₂) ∧
    (validateCallsAgainstPolicies [badEntrypointCall] fixturePolicies =
       .error (.invalidInput (entrypointMsg "mint" "0xaaa" ["transfer"])) ∧
     ∃ s₁ s₂, entrypointMsg "mint" "0xaaa" ["transfer"] =
       s₁ ++ joinSep ", " ["transfer"] ++ s₂) := by
  constructor
  · exact (rejection_message_content fixturePolicies [] [] unknownContractCall
      (by intro c hc; cases hc)).1 rfl
  · exact (rejection_message_content fixturePolicies [] [] badEntrypointCall
      (by intro c hc; cases hc)).2 "0xaaa"
      (ContractPolicy.mk none [MethodPolicy.mk "transfer" "transfer" none none true])
      rfl rfl

/-- C6: enforcement is all-or-nothing per batch: if any call of the batch is
disallowed by the stored policies, the execute gate aborts with an error
before signing, and no call of the batch proceeds to submission. -/
theorem batch_rejection_all_or_nothing :
    ∀ (calls : List CallSpec) (ps : PolicyStorage) (c : CallSpec),
      c ∈ calls → (checkCall ps c).isOk = false →
      (∃ e, executeGate calls (some ps) = .error e) ∧
      (∀ l, executeGate calls (some ps) ≠ .ok l) := by
  intro calls ps c hmem hbad
  obtain ⟨e, he⟩ := validateLoop_error_of_mem hmem hbad
  have hv : validateCallsAgainstPolicies calls ps = .error e := by
    unfold validateCallsAgainstPolicies
    rcases calls with _ | ⟨a, t⟩
    · cases hmem
    · rw [if_neg (by simp)]
      exact he
  have hg : executeGate calls (some ps) = .error e := by
    simp [executeGate, hv]
  exact ⟨⟨e, hg⟩, fun l hl => by rw [hg] at hl; cases hl⟩

/-- Witness for C6 at a concrete two-call batch whose second call is
disallowed. -/
theorem batch_rejection_all_or_nothing_witness :
    (∃ e, executeGate [CallSpec.mk "0xaaa" "transfer" [], badEntrypointCall]
       (some fixturePolicies) = .error e) ∧
    (∀ l, executeGate [CallSpec.mk "0xaaa" "transfer" [], badEntrypointCall]
       (some fixturePolicies) ≠ .ok l) :=
  batch_rejection_all_or_nothing
    [CallSpec.mk "0xaaa" "transfer" [], badEntrypointCall] fixturePolicies
    badEntrypointCall (by decide) (by decide)

/-! ## Helper lemmas about the canonical sort -/

/-- `methodLe` is transitive. -/
theorem methodLe_trans : ∀ a b c : MethodPolicy, methodLe a b → methodLe b c → methodLe a c := by
  intro a b c hab hbc
  simp only [methodLe, decide_eq_true_eq] at *
  exact le_trans hab hbc

/-- `methodLe` is total. -/
theorem methodLe_total : ∀ a b : MethodPolicy, methodLe a b || methodLe b a := by
  intro a b
  simp only [methodLe, Bool.or_eq_true, decide_eq_true_eq]
  exact le_total _ _

/-- `contractLe` is transitive. -/
theorem contractLe_trans : ∀ a b c : String × ContractPolicy,
    contractLe a b → contractLe b c → contractLe a c := by
  intro a b c hab hbc
  simp only [contractLe, decide_eq_true_eq] at *
  exact le_trans hab hbc

/-- `contractLe` is total. -/
theorem contractLe_total : ∀ a b : String × ContractPolicy,
    contractLe a b || contractLe b a := by
  intro a b
  simp only [contractLe, Bool.or_eq_true, decide_eq_true_eq]
  exact le_total _ _

/-- Sorting the methods twice equals sorting them once. -/
theorem sortMethods_idem (ms : List MethodPolicy) :
    sortMethods (sortMethods ms) = sortMethods ms :=
  List.mergeSort_of_sorted (List.sorted_mergeSort methodLe_trans methodLe_total ms)

/-- C9: the canonical sort is idempotent — applying it to an
already-normalized policy set yields the identical policy set. -/
theorem normalize_idempotent :
    ∀ cs : List (String × ContractPolicy),
      normalizeContracts (normalizeContracts cs) = normalizeContracts cs := by
  intro cs
  unfold normalizeContracts
  have h1 : (sortContracts cs).Pairwise (fun a b => contractLe a b) :=
    List.sorted_mergeSort contractLe_trans contractLe_total cs
  have hsorted : ((sortContracts cs).map
      (fun p => (p.1, ContractPolicy.mk p.2.name (sortMethods p.2.methods)))).Pairwise
        (fun a b => contractLe a b) :=
    List.Pairwise.map _ (fun a b hab => hab) h1
  have heq : sortContracts ((sortContracts cs).map
      (fun p => (p.1, ContractPolicy.mk p.2.name (sortMethods p.2.methods)))) =
      (sortContracts cs).map
        (fun p => (p.1, ContractPolicy.mk p.2.name (sortMethods p.2.methods))) :=
    List.mergeSort_of_sorted hsorted
  rw [heq, List.map_map]
  apply List.map_congr_left
  intro p _
  simp [Function.comp, sortMethods_idem]

/-- Mapping a constant over equal-length lists gives equal results. -/
theorem map_const_of_length_eq {α β γ : Type} :
    ∀ (l₁ : List α) (l₂ : List β) (c : γ), l₁.length = l₂.length →
      l₁.map (fun _ => c) = l₂.map (fun _ => c) := by
  intro l₁
  induction l₁ with
  | nil =>
    intro l₂ c h
    cases l₂
    · rfl
    · simp at h
  | cons a t ih =>
    intro l₂ c h
    cases l₂ with
    | nil => simp at h
    | cons b t₂ =>
      simp only [List.length_cons, Nat.add_right_cancel_iff] at h
      simp only [List.map_cons]
      rw [ih t₂ c h]

/-- `flatMap` respects pointwise-equal segment functions. -/
theorem flatMap_congr_mem {α β : Type} {l : List α} {f g : α → List β}
    (h : ∀ a ∈ l, f a = g a) : l.flatMap f = l.flatMap g := by
  induction l with
  | nil => rfl
  | cons a t ih =>
    simp only [List.flatMap_cons]
    rw [h a (List.mem_cons_self a t), ih (fun b hb => h b (List.mem_cons_of_mem a hb))]

/-- Shape of a successful per-contract policy build: addresses are the
parsed contract address, selectors are the (sorted) entrypoint names. -/
theorem methodEntryPolicies_ok {f : Nat} :
    ∀ {ms : List MethodPolicy} {l : List CallPolicyM},
      methodEntryPolicies f ms = .ok l →
      l.map (fun cp => cp.contract_address) = ms.map (fun _ => f) ∧
      l.map (fun cp => cp.selectorName) = ms.map (fun m => m.entrypoint) := by
  intro ms
  induction ms with
  | nil =>
    intro l h
    simp only [methodEntryPolicies, Except.ok.injEq] at h
    subst h
    simp
  | cons m t ih =>
    intro l h
    unfold methodEntryPolicies at h
    by_cases ha : (m.entrypoint.data.all (fun c => c.toNat < 128)) = true
    · rw [if_pos ha] at h
      rcases ht : methodEntryPolicies f t with e | lt
      · rw [ht] at h; cases h
      · rw [ht] at h
        simp only [Except.ok.injEq] at h
        subst h
        obtain ⟨h1, h2⟩ := ih ht
        simp [h1, h2]
    · rw [if_neg ha] at h; cases h

/-- Shape of a successful `policy_vec` build over a contract list. -/
theorem buildPolicyVecLoop_ok :
    ∀ {cs : List (String × ContractPolicy)} {v : List CallPolicyM},
      buildPolicyVecLoop cs = .ok v →
      v.map (fun cp => cp.contract_address) =
        cs.flatMap (fun p => (sortMethods p.2.methods).map
          (fun _ => (feltFromHex p.1).getD 0)) ∧
      v.map (fun cp => cp.selectorName) =
        cs.flatMap (fun p => (sortMethods p.2.methods).map (fun m => m.entrypoint)) := by
  intro cs
  induction cs with
  | nil =>
    intro v h
    simp only [buildPolicyVecLoop, Except.ok.injEq] at h
    subst h
    simp
  | cons p t ih =>
    intro v h
    unfold buildPolicyVecLoop at h
    rcases hc : contractEntryPolicies p with e | l
    · rw [hc] at h; cases h
    · rw [hc] at h
      rcases hr : buildPolicyVecLoop t with e | ls
      · rw [hr] at h; cases h
      · rw [hr] at h
        simp only [Except.ok.injEq] at h
        subst h
        unfold contractEntryPolicies at hc
        rcases hf : feltFromHex p.1 with _ | fp
        · rw [hf] at hc; cases hc
        · rw [hf] at hc
          obtain ⟨h1, h2⟩ := methodEntryPolicies_ok hc
          obtain ⟨h3, h4⟩ := ih hr
          simp [List.flatMap_cons, h1, h2, h3, h4, hf]

/-- C1 (amended): for every policy file whose stored policy vector builds
successfully, the contract-level canonical order is identical between the
authorization-URL policies JSON and the stored policy list (position by
position the same contract sequence); within each contract, however, the
stored list carries the grants sorted byte-wise by entrypoint while the URL
JSON embeds them in the file's original order — the two grant sequences
coincide whenever every contract's grants are already entrypoint-sorted in
the file. -/
theorem canonical_order_url_vs_stored :
    ∀ (pf : PolicyFileM) (v : List CallPolicyM),
      buildPolicyVec pf = .ok v →
      ((urlPolicyOrder pf).map (fun q => (feltFromHex q.1).getD 0) =
        v.map (fun cp => cp.contract_address)) ∧
      (v.map (fun cp => cp.selectorName) =
        (sortContracts pf.contracts).flatMap
          (fun p => (sortMethods p.2.methods).map (fun m => m.entrypoint))) ∧
      ((∀ p ∈ pf.contracts, sortMethods p.2.methods = p.2.methods) →
        (urlPolicyOrder pf).map Prod.snd = v.map (fun cp => cp.selectorName)) := by
  intro pf v h
  obtain ⟨h1, h2⟩ := buildPolicyVecLoop_ok h
  refine ⟨?_, h2, ?_⟩
  · rw [h1]
    unfold urlPolicyOrder
    rw [List.map_flatMap]
    apply flatMap_congr_mem
    intro p _
    rw [List.map_map]
    have hcomp : ((fun q : String × String => (feltFromHex q.1).getD 0) ∘
        fun m : MethodPolicy => (p.1, m.entrypoint)) =
        fun _ : MethodPolicy => (feltFromHex p.1).getD 0 := rfl
    rw [hcomp]
    exact map_const_of_length_eq _ _ _ (List.length_mergeSort _).symm
  · intro hs
    have hmem : ∀ p ∈ sortContracts pf.contracts, sortMethods p.2.methods = p.2.methods :=
      fun p hp => hs p (List.mem_mergeSort.mp hp)
    rw [h2]
    unfold urlPolicyOrder
    rw [List.map_flatMap]
    apply flatMap_congr_mem
    intro p hp
    rw [hmem p hp, List.map_map]
    rfl

/-- A policy file whose single contract lists its grants already sorted. -/
def sortedMethodsFile : PolicyFileM :=
  PolicyFileM.mk
    [("0xaaa", ContractPolicy.mk none [MethodPolicy.mk "transfer" "transfer" none none true])]
    none

/-- Witness for C1 (amended) at a concrete file with sorted grants. -/
theorem canonical_order_url_vs_stored_witness :
    ((urlPolicyOrder sortedMethodsFile).map (fun q => (feltFromHex q.1).getD 0) =
      [CallPolicyM.mk 2730 "transfer" true].map (fun cp => cp.contract_address)) ∧
    (([CallPolicyM.mk 2730 "transfer" true] : List CallPolicyM).map (fun cp => cp.selectorName) =
      (sortContracts sortedMethodsFile.contracts).flatMap
        (fun p => (sortMethods p.2.methods).map (fun m => m.entrypoint))) ∧
    ((urlPolicyOrder sortedMethodsFile).map Prod.snd =
      ([CallPolicyM.mk 2730 "transfer" true] : List CallPolicyM).map
        (fun cp => cp.selectorName)) := by
  have h := canonical_order_url_vs_stored sortedMethodsFile
    [CallPolicyM.mk 2730 "transfer" true]
    (by
      simp [buildPolicyVec, buildPolicyVecLoop, sortedMethodsFile, sortContracts,
        contractEntryPolicies, methodEntryPolicies, sortMethods, feltFromHex, hexVal,
        hexDigitVal, isHexDigitChar, starkPrime])
  refine ⟨h.1, h.2.1, h.2.2 ?_⟩
  intro p hp
  simp only [sortedMethodsFile, List.mem_singleton] at hp
  subst hp
  simp [sortMethods]

/-- The counterexample policy file for C1: one contract whose two grants
appear in reverse entrypoint order. -/
def unsortedMethodsFile : PolicyFileM :=
  PolicyFileM.mk
    [("0xaaa", ContractPolicy.mk none
      [MethodPolicy.mk "b_entry" "b_entry" none none true,
       MethodPolicy.mk "a_entry" "a_entry" none none true])]
    none

/-- Counterexample to C1 as stated: for `unsortedMethodsFile` the grant
order embedded in the authorization-URL policies JSON is the file order
`b_entry, a_entry`, while the stored policy list is entrypoint-sorted
`a_entry, b_entry` — the two canonical orders differ. -/
theorem url_vs_stored_order_counterexample :
    (urlPolicyOrder unsortedMethodsFile).map Prod.snd = ["b_entry", "a_entry"] ∧
    buildPolicyVec unsortedMethodsFile =
      .ok [CallPolicyM.mk 2730 "a_entry" true, CallPolicyM.mk 2730 "b_entry" true] ∧
    (urlPolicyOrder unsortedMethodsFile).map Prod.snd ≠
      ([CallPolicyM.mk 2730 "a_entry" true, CallPolicyM.mk 2730 "b_entry" true]
        : List CallPolicyM).map (fun cp => cp.selectorName) := by
  refine ⟨?_, ?_, ?_⟩
  · simp [urlPolicyOrder, unsortedMethodsFile, sortContracts]
  · simp [buildPolicyVec, buildPolicyVecLoop, unsortedMethodsFile, sortContracts,
      contractEntryPolicies, methodEntryPolicies, sortMethods, List.mergeSort, List.merge,
      methodLe, feltFromHex, hexVal, hexDigitVal, isHexDigitChar, starkPrime]
  · simp [urlPolicyOrder, unsortedMethodsFile, sortContracts]

/-! ## Helper lemmas about the long-poll loop -/

/-- The poll loop issues at most `fuel` requests. -/
theorem pollCalls_length_le (guid : String)
    (rs : Nat → Except CliErrorM (Option SessionInfoM)) :
    ∀ (fuel attempt : Nat), (pollCalls guid rs attempt fuel).length ≤ fuel := by
  intro fuel
  induction fuel with
  | zero => intro attempt; simp [pollCalls]
  | succ f ih =>
    intro attempt
    unfold pollCalls
    rcases rs attempt with e | o
    · simp
    · rcases o with _ | si
      · simpa using Nat.succ_le_succ (ih (attempt + 1))
      · simp

/-- Every request the poll loop issues uses the same `session_key_guid`. -/
theorem pollCalls_guid_const (guid : String)
    (rs : Nat → Except CliErrorM (Option SessionInfoM)) :
    ∀ (fuel attempt : Nat) (q : String × Nat),
      q ∈ pollCalls guid rs attempt fuel → q.1 = guid := by
  intro fuel
  induction fuel with
  | zero => intro attempt q h; simp [pollCalls] at h
  | succ f ih =>
    intro attempt q h
    unfold pollCalls at h
    rcases List.mem_cons.mp h with rfl | htail
    · rfl
    · rcases hrs : rs attempt with e | o <;> rw [hrs] at htail
      · cases htail
      · rcases o with _ | si
        · exact ih (attempt + 1) q htail
        · cases htail

/-- A successful `store_session_from_api` issues exactly the
`set_session`/`set_controller` pair. -/
theorem storeSessionFromApi_ok_shape {trace : List StoreOp} {si : SessionInfoM}
    {publicKey : String} {pols : List CallPolicyM} {ops : List StoreOp}
    (h : storeSessionFromApi trace si publicKey pols = .ok ops) :
    ∃ sk sm cid a cm, ops = [StoreOp.setSession sk sm, StoreOp.setController cid a cm] := by
  unfold storeSessionFromApi at h
  repeat' split at h
  all_goals try exact Except.noConfusion h
  injection h with h
  exact ⟨_, _, _, _, _, h.symm⟩

/-- Error results of the poll loop leave the trace unchanged; a success
appends exactly the session/controller pair followed by the four scalar
keys. -/
theorem authorizePoll_shape (publicKey guid rpcUrl : String)
    (polC : List (String × ContractPolicy)) (pols : List CallPolicyM)
    (rs : Nat → Except CliErrorM (Option SessionInfoM)) :
    ∀ (fuel attempt : Nat) (trace0 : List StoreOp) (res : Except CliErrorM Unit)
      (trace : List StoreOp),
      authorizePoll trace0 publicKey guid rpcUrl polC pols rs attempt fuel = (res, trace) →
      ((∀ e, res = .error e → trace = trace0) ∧
       (res = .ok () → ∃ (sk : String) (sm : SessionMetadataM) (cid a : Nat)
           (cm : ControllerMetadataM) (si2 : SessionInfoM),
         trace = trace0 ++ [StoreOp.setSession sk sm, StoreOp.setController cid a cm] ++
           [StoreOp.setScalar "session_chain_id" (StoredVal.strV si2.chainId),
            StoreOp.setScalar "session_rpc_url" (StoredVal.strV rpcUrl),
            StoreOp.setScalar "session_policies" (StoredVal.policiesV polC),
            StoreOp.setScalar "session_key_guid" (StoredVal.strV guid)])) := by
  intro fuel
  induction fuel with
  | zero =>
    intro attempt trace0 res trace h
    unfold authorizePoll at h
    rw [Prod.mk.injEq] at h
    refine ⟨fun e he => h.2.symm, fun hok => ?_⟩
    rw [← h.1] at hok
    exact Except.noConfusion hok
  | succ f ih =>
    intro attempt trace0 res trace h
    unfold authorizePoll at h
    split at h
    · rw [Prod.mk.injEq] at h
      refine ⟨fun e he => h.2.symm, fun hok => ?_⟩
      rw [← h.1] at hok
      exact Except.noConfusion hok
    · rename_i si hrs2
      split at h
      · rw [Prod.mk.injEq] at h
        refine ⟨fun e he => h.2.symm, fun hok => ?_⟩
        rw [← h.1] at hok
        exact Except.noConfusion hok
      · rename_i ops hst
        rw [Prod.mk.injEq] at h
        obtain ⟨sk, sm, cid, a, cm, hops⟩ := storeSessionFromApi_ok_shape hst
        refine ⟨fun e he => ?_, fun _ => ?_⟩
        · rw [← h.1] at he
          exact Except.noConfusion he
        · exact ⟨sk, sm, cid, a, cm, si, by rw [← h.2, hops]⟩
    · exact ih (attempt + 1) trace0 res trace h

/-- C2 (amended): any failing run — the poll timeout included — leaves the
storage trace at exactly the pre-poll keypair write (`session_signer`),
which `execute` performs before polling begins; the Session and
ControllerMetadata records appear in the trace together or not at all, and
only when the flow returns success after polling yielded an approval. -/
theorem timeout_and_persistence :
    ∀ (privateKey : Nat) (publicKey guid rpcUrl : String)
      (polC : List (String × ContractPolicy)) (pols : List CallPolicyM)
      (rs : Nat → Except CliErrorM (Option SessionInfoM))
      (res : Except CliErrorM Unit) (trace : List StoreOp),
      authorizeFlow privateKey publicKey guid rpcUrl polC pols rs = (res, trace) →
      ((∀ e, res = .error e →
         trace = [StoreOp.setScalar "session_signer" (StoredVal.credsV privateKey [])]) ∧
       ((∃ k m, StoreOp.setSession k m ∈ trace) ↔
         (∃ cid a m, StoreOp.setController cid a m ∈ trace)) ∧
       ((∃ k m, StoreOp.setSession k m ∈ trace) → res = .ok ())) := by
  intro pk publicKey guid rpcUrl polC pols rs res trace h
  have hs := authorizePoll_shape publicKey guid rpcUrl polC pols rs maxAttempts 1
    [StoreOp.setScalar "session_signer" (StoredVal.credsV pk [])] res trace h
  refine ⟨hs.1, ?_, ?_⟩
  · cases res with
    | ok u =>
      cases u
      obtain ⟨sk, sm, cid, a, cm, si2, htr⟩ := hs.2 rfl
      subst htr
      constructor
      · intro _; exact ⟨cid, a, cm, by simp⟩
      · intro _; exact ⟨sk, sm, by simp⟩
    | error e =>
      have htr := hs.1 e rfl
      subst htr
      constructor
      · rintro ⟨k, m, hm⟩; simp at hm
      · rintro ⟨cid, a, m, hm⟩; simp at hm
  · cases res with
    | ok u => intro _; cases u; rfl
    | error e =>
      have htr := hs.1 e rfl
      subst htr
      rintro ⟨k, m, hm⟩
      simp at hm

/-- A fake authority that never approves. -/
def neverApprove : Nat → Except CliErrorM (Option SessionInfoM) := fun _ => .ok none

/-- A fake authority that approves immediately with well-formed data. -/
def approveNow : Nat → Except CliErrorM (Option SessionInfoM) :=
  fun _ => .ok (some (SessionInfoM.mk [] "0x1" "player" "0x5" 100))

/-- Witness for C2 (amended): an approving run ends in success (so its
session/controller writes are covered by the together-only-on-approval
clauses). -/
theorem timeout_and_persistence_witness :
    (authorizeFlow 7 "0x2" "0xguid" "https://api.cartridge.gg/x/starknet/sepolia"
      [] [] approveNow).1 = .ok () := by
  have h := timeout_and_persistence 7 "0x2" "0xguid"
    "https://api.cartridge.gg/x/starknet/sepolia" [] [] approveNow
    (authorizeFlow 7 "0x2" "0xguid" "https://api.cartridge.gg/x/starknet/sepolia"
      [] [] approveNow).1
    (authorizeFlow 7 "0x2" "0xguid" "https://api.cartridge.gg/x/starknet/sepolia"
      [] [] approveNow).2
    rfl
  exact h.2.2 ⟨"@cartridge/session/0x1/0x5",
    SessionMetadataM.mk 7 [] (SessionM.mk [] 100 2 0) none true, by decide⟩

/-- Counterexample to C2 as stated: on a run that times out, storage is not
left untouched — the freshly generated session keypair was persisted under
`session_signer` before polling. -/
theorem timeout_persists_keypair_counterexample :
    (authorizeFlow 7 "0x2" "0xguid" "https://api.cartridge.gg/x/starknet/sepolia"
      [] [] neverApprove).1 = .error (.callbackTimeout 360) ∧
    (authorizeFlow 7 "0x2" "0xguid" "https://api.cartridge.gg/x/starknet/sepolia"
      [] [] neverApprove).2 ≠ [] :=
  ⟨rfl, by decide⟩

/-- If the first `k` polls return "not yet" and poll `k+1` (within budget)
returns a well-formed approval, the loop succeeds after exactly `k + 1`
requests. -/
theorem authorizePoll_success (publicKey guid rpcUrl : String)
    (polC : List (String × ContractPolicy)) (pols : List CallPolicyM)
    (rs : Nat → Except CliErrorM (Option SessionInfoM)) :
    ∀ (k fuel attempt : Nat) (si : SessionInfoM) (trace0 ops : List StoreOp),
      k < fuel →
      (∀ j, j < k → rs (attempt + j) = .ok none) →
      rs (attempt + k) = .ok (some si) →
      storeSessionFromApi trace0 si publicKey pols = .ok ops →
      (authorizePoll trace0 publicKey guid rpcUrl polC pols rs attempt fuel).1 = .ok () ∧
      (pollCalls guid rs attempt fuel).length = k + 1 := by
  intro k
  induction k with
  | zero =>
    intro fuel attempt si trace0 ops hk hnone hsome hst
    rcases fuel with _ | f
    · omega
    · have h0 : rs attempt = .ok (some si) := by simpa using hsome
      simp [authorizePoll, pollCalls, h0, hst]
  | succ kk ih =>
    intro fuel attempt si trace0 ops hk hnone hsome hst
    rcases fuel with _ | f
    · omega
    · have h0 : rs attempt = .ok none := by simpa using hnone 0 (Nat.succ_pos kk)
      have hrec := ih f (attempt + 1) si trace0 ops (by omega)
        (fun j hj => by
          have hx := hnone (j + 1) (by omega)
          rwa [show attempt + (j + 1) = attempt + 1 + j by omega] at hx)
        (by rwa [show attempt + (kk + 1) = attempt + 1 + kk by omega] at hsome)
        hst
      simp only [authorizePoll, pollCalls, h0]
      exact ⟨hrec.1, by simp [hrec.2]⟩

/-- If every poll within the budget returns "not yet", the loop fails with
`CallbackTimeout(max_attempts * 120)` after exactly `fuel` requests,
leaving the trace unchanged. -/
theorem authorizePoll_timeout (publicKey guid rpcUrl : String)
    (polC : List (String × ContractPolicy)) (pols : List CallPolicyM)
    (rs : Nat → Except CliErrorM (Option SessionInfoM)) :
    ∀ (fuel attempt : Nat) (trace0 : List StoreOp),
      (∀ j, j < fuel → rs (attempt + j) = .ok none) →
      authorizePoll trace0 publicKey guid rpcUrl polC pols rs attempt fuel =
        (.error (.callbackTimeout (maxAttempts * 120)), trace0) ∧
      (pollCalls guid rs attempt fuel).length = fuel := by
  intro fuel
  induction fuel with
  | zero => intro attempt trace0 hall; exact ⟨rfl, rfl⟩
  | succ f ih =>
    intro attempt trace0 hall
    have h0 : rs attempt = .ok none := by simpa using hall 0 (Nat.succ_pos f)
    have hrec := ih (attempt + 1) trace0
      (fun j hj => by
        have hx := hall (j + 1) (by omega)
        rwa [show attempt + (j + 1) = attempt + 1 + j by omega] at hx)
    simp only [authorizePoll, pollCalls, h0]
    exact ⟨hrec.1, by simp [hrec.2]⟩

/-- C3: the flow issues at most `max_attempts = 3` poll requests, all
carrying the same `session_key_guid`; a well-formed approval on attempt
`k + 1 ≤ 3` (after `k` "not yet" results) yields success within the
budget, and three "not yet" results yield
`CallbackTimeout(3 × 120 s = 360 s)` — the total elapsed seconds of the
~6-minute budget (the spec's `AuthorizationTimeout`). -/
theorem poll_attempt_budget :
    ∀ (rs : Nat → Except CliErrorM (Option SessionInfoM)) (guid : String)
      (privateKey : Nat) (publicKey rpcUrl : String)
      (polC : List (String × ContractPolicy)) (pols : List CallPolicyM),
      (pollCalls guid rs 1 maxAttempts).length ≤ maxAttempts ∧
      (∀ q ∈ pollCalls guid rs 1 maxAttempts, q.1 = guid) ∧
      (∀ (k : Nat) (si : SessionInfoM) (ops : List StoreOp), k < maxAttempts →
        (∀ j, j < k → rs (1 + j) = .ok none) →
        rs (1 + k) = .ok (some si) →
        storeSessionFromApi
          [StoreOp.setScalar "session_signer" (StoredVal.credsV privateKey [])]
          si publicKey pols = .ok ops →
        (authorizeFlow privateKey publicKey guid rpcUrl polC pols rs).1 = .ok () ∧
        (pollCalls guid rs 1 maxAttempts).length = k + 1) ∧
      ((∀ k, k < maxAttempts → rs (1 + k) = .ok none) →
        (authorizeFlow privateKey publicKey guid rpcUrl polC pols rs).1 =
          .error (.callbackTimeout (maxAttempts * 120)) ∧
        (pollCalls guid rs 1 maxAttempts).length = maxAttempts) := by
  intro rs guid pk publicKey rpcUrl polC pols
  refine ⟨pollCalls_length_le guid rs maxAttempts 1,
    fun q hq => pollCalls_guid_const guid rs maxAttempts 1 q hq, ?_, ?_⟩
  · intro k si ops hk hnone hsome hst
    exact authorizePoll_success publicKey guid rpcUrl polC pols rs k maxAttempts 1 si
      [StoreOp.setScalar "session_signer" (StoredVal.credsV pk [])] ops hk hnone hsome hst
  · intro hall
    have h := authorizePoll_timeout publicKey guid rpcUrl polC pols rs maxAttempts 1
      [StoreOp.setScalar "session_signer" (StoredVal.credsV pk [])] hall
    exact ⟨congrArg Prod.fst h.1, h.2⟩

/-- A fake authority returning "not yet" twice and a well-formed approval
on the third attempt. -/
def approveThird : Nat → Except CliErrorM (Option SessionInfoM) :=
  fun n => if n = 3 then .ok (some (SessionInfoM.mk [] "0x1" "player" "0x5" 100)) else .ok none

/-- Witness for C3: the two-misses-then-approval authority succeeds after
exactly three poll requests. -/
theorem poll_attempt_budget_witness :
    (authorizeFlow 7 "0x2" "0xguid" "https://api.cartridge.gg/x/starknet/sepolia"
      [] [] approveThird).1 = .ok () ∧
    (pollCalls "0xguid" approveThird 1 maxAttempts).length = 2 + 1 := by
  have h := poll_attempt_budget approveThird "0xguid" 7 "0x2"
    "https://api.cartridge.gg/x/starknet/sepolia" [] []
  exact h.2.2.1 2 (SessionInfoM.mk [] "0x1" "player" "0x5" 100)
    [StoreOp.setSession "@cartridge/session/0x1/0x5"
       (SessionMetadataM.mk 7 [] (SessionM.mk [] 100 2 0) none true),
     StoreOp.setController 5 1 (ControllerMetadataM.mk 1 5 0 "" 0 0 "player")]
    (by decide) (by intro j hj; interval_cases j <;> rfl) (by rfl) (by rfl)
